import Mathlib

/-!
Shallow embedding of the ProjectSync project/task store (src/App.tsx and
src/types.ts) together with proofs of the specified properties of its
operations.  The store state is the in-memory list of projects held in the
React `projects` state; every mutating operation of `App.tsx` is modelled as
a pure function from the previous list of projects to the next one, exactly
mirroring the `setProjects` updater it runs.  Identifier generation
(`generateId`, a random UUID) and the browser dialogs (`confirm`) are
nondeterministic inputs of the program and are modelled as explicit
parameters.
-/

namespace ProjectSync

/-- Goal status enumeration from src/types.ts (`GoalStatus`). -/
inductive GoalStatus where
  | PENDING
  | IN_PROGRESS
  | COMPLETED
deriving DecidableEq, Repr

/-- Goal priority enumeration from src/types.ts (`GoalPriority`);
the serialized values are the lowercase strings "low", "medium", "high". -/
inductive GoalPriority where
  | low
  | medium
  | high
deriving DecidableEq, Repr

/-- Project status enumeration from src/types.ts (`ProjectStatus`). -/
inductive ProjectStatus where
  | PLANNING
  | ACTIVE
  | PAUSED
  | COMPLETED
deriving DecidableEq, Repr

/-- The `Goal` interface of src/types.ts. -/
structure Goal where
  id : String
  projectId : String
  title : String
  description : String
  status : GoalStatus
  priority : GoalPriority
  dueDate : Option String
deriving DecidableEq, Repr

/-- The `Project` interface of src/types.ts. -/
structure Project where
  id : String
  title : String
  description : String
  category : String
  status : ProjectStatus
  deadline : Option String
  goals : List Goal
  createdAt : String
deriving DecidableEq, Repr

/-- A `Partial<Goal>` value as used by `updateGoal` in src/App.tsx: every
field may be absent (`none` models the field being absent/undefined in the
JavaScript object). -/
structure GoalPatch where
  id : Option String
  projectId : Option String
  title : Option String
  description : Option String
  status : Option GoalStatus
  priority : Option GoalPriority
  dueDate : Option String
deriving DecidableEq, Repr

/-- The JavaScript object spread `{ ...g, ...updates }` used by `updateGoal`:
each field of the result comes from the patch when present, otherwise from
the goal. -/
def mergeGoal (g : Goal) (u : GoalPatch) : Goal :=
  { id := u.id.getD g.id
    projectId := u.projectId.getD g.projectId
    title := u.title.getD g.title
    description := u.description.getD g.description
    status := u.status.getD g.status
    priority := u.priority.getD g.priority
    dueDate := match u.dueDate with
      | some d => some d
      | none => g.dueDate }

/-- Reserved identifier of the seeded Inbox project (src/App.tsx line 24,
checked by `deleteProject` at line 222). -/
def inboxId : String := "inbox-project"

/-- Error outcomes of the store operations.  The code signals `validation`
by the form's `required` attributes refusing an empty field, and
`protectedEntity` by the alert in `deleteProject`; a mutation that runs into
either leaves the collection unchanged. -/
inductive StoreError where
  | validation
  | protectedEntity
  | notFound
deriving DecidableEq, Repr

/-- The create branch of `handleSaveProject` (src/App.tsx lines 119-131):
appends a new project with a freshly generated id, status ACTIVE, no goals
and the current timestamp.  `newId` models the output of `generateId` and
`now` the output of `new Date().toISOString()`.  The `validation` branch
models the `required` attributes on the title and description form fields
(lines 770 and 781), which refuse submitting an empty value. -/
def createProject (title description category : String) (deadline : Option String)
    (newId now : String) (projects : List Project) : Except StoreError (List Project) :=
  if title = "" ∨ description = "" then
    .error .validation
  else
    .ok (projects ++ [{ id := newId
                        title := title
                        description := description
                        category := category
                        status := ProjectStatus.ACTIVE
                        deadline := deadline
                        goals := []
                        createdAt := now }])

/-- The `deleteProject` function of src/App.tsx (lines 221-229).  The inbox
check precedes everything; `confirmed` models the result of the `confirm`
dialog — when the user declines, the collection is left as it was. -/
def deleteProject (id : String) (confirmed : Bool)
    (projects : List Project) : Except StoreError (List Project) :=
  if id = inboxId then
    .error .protectedEntity
  else if confirmed then
    .ok (projects.filter (fun p => p.id != id))
  else
    .ok projects

/-- The goal record built by `handleAddGoal` (src/App.tsx lines 140-148);
`newId` models the output of `generateId`. -/
def mkGoal (newId projectId title description : String) (dueDate : Option String)
    (priority : GoalPriority) : Goal :=
  { id := newId
    projectId := projectId
    title := title
    description := description
    status := GoalStatus.PENDING
    priority := priority
    dueDate := dueDate }

/-- JavaScript's `String.prototype.trim` on the character list of a string:
drop whitespace from both ends. -/
def trimChars (l : List Char) : List Char :=
  ((l.dropWhile Char.isWhitespace).reverse.dropWhile Char.isWhitespace).reverse

/-- The per-project updater lambda of src/App.tsx lines 150-152: prepend the
new goal to the matching project. -/
def addGoalFn (projectId : String) (newGoal : Goal) (p : Project) : Project :=
  if p.id = projectId then { p with goals := newGoal :: p.goals } else p

/-- The `handleAddGoal` function of src/App.tsx (lines 137-156): a blank
(whitespace-only) title (the `!title.trim()` test) or an empty projectId
aborts without change; otherwise the new goal is prepended to the goal list
of every project whose id matches. -/
def addGoal (projectId title description : String) (dueDate : Option String)
    (priority : GoalPriority) (newId : String)
    (prev : List Project) : List Project :=
  if trimChars title.toList = [] ∨ projectId = "" then
    prev
  else
    prev.map (addGoalFn projectId (mkGoal newId projectId title description dueDate priority))

/-- `handleAddGoal`'s default for its `priority` parameter is
`GoalPriority.MEDIUM` (src/App.tsx line 137). -/
def addGoalDefault (projectId title description : String) (dueDate : Option String)
    (newId : String) (prev : List Project) : List Project :=
  addGoal projectId title description dueDate GoalPriority.medium newId prev

/-- The lookup loop at the top of `updateGoal` (src/App.tsx lines 160-167):
scan all projects in order and return the first goal whose id matches. -/
def findGoal (prev : List Project) (goalId : String) : Option Goal :=
  match prev with
  | [] => none
  | p :: rest =>
    match p.goals.find? (fun g => g.id == goalId) with
    | some g => some g
    | none => findGoal rest goalId

/-- The truthiness test `updates.projectId && updates.projectId !== projectId`
guarding the cross-project move branch of `updateGoal` (src/App.tsx
line 171): the patch carries a projectId that is a non-empty string and
differs from the caller-supplied one. -/
def isMoveTarget (u : GoalPatch) (projectId : String) : Bool :=
  match u.projectId with
  | some q => q != "" && q != projectId
  | none => false

/-- The per-project updater lambda of the cross-project move branch of
`updateGoal` (src/App.tsx lines 172-180): strip the goal from the project
whose id is the caller-supplied one, prepend the merged goal to the project
whose id is the patch's projectId, leave every other project alone. -/
def moveFn (projectId goalId : String) (u : GoalPatch) (originalGoal : Goal)
    (p : Project) : Project :=
  if p.id = projectId then
    { p with goals := p.goals.filter (fun g => g.id != goalId) }
  else if u.projectId = some p.id then
    { p with goals := mergeGoal originalGoal u :: p.goals }
  else p

/-- The per-goal updater of the in-place branch of `updateGoal`
(src/App.tsx line 187): merge the patch into the matching goal. -/
def patchGoalFn (goalId : String) (u : GoalPatch) (g : Goal) : Goal :=
  if g.id = goalId then mergeGoal g u else g

/-- The per-project updater lambda of the in-place branch of `updateGoal`
(src/App.tsx lines 183-191). -/
def inPlaceFn (projectId goalId : String) (u : GoalPatch) (p : Project) : Project :=
  if p.id = projectId then
    { p with goals := p.goals.map (patchGoalFn goalId u) }
  else p

/-- The `updateGoal` function of src/App.tsx (lines 158-194).  If no goal
anywhere carries `goalId` the state is returned unchanged (line 169).  With
a move target, the goal is removed from the project whose id equals the
caller-supplied `projectId` and the merged goal is prepended to the project
whose id equals the patch's projectId (lines 171-181).  Otherwise the merge
is applied in place inside the caller-supplied project (lines 183-191). -/
def updateGoal (projectId goalId : String) (u : GoalPatch)
    (prev : List Project) : List Project :=
  match findGoal prev goalId with
  | none => prev
  | some originalGoal =>
    if isMoveTarget u projectId then
      prev.map (moveFn projectId goalId u originalGoal)
    else
      prev.map (inPlaceFn projectId goalId u)

/-- The status flip performed by `toggleGoalStatus` (src/App.tsx line 203). -/
def toggleStatus (s : GoalStatus) : GoalStatus :=
  if s = GoalStatus.COMPLETED then GoalStatus.PENDING else GoalStatus.COMPLETED

/-- The per-goal updater of `toggleGoalStatus` (src/App.tsx lines 201-204). -/
def toggleGoalFn (goalId : String) (g : Goal) : Goal :=
  if g.id = goalId then { g with status := toggleStatus g.status } else g

/-- The per-project updater of `toggleGoalStatus` (src/App.tsx
lines 197-207). -/
def toggleProjFn (projectId goalId : String) (p : Project) : Project :=
  if p.id = projectId then
    { p with goals := p.goals.map (toggleGoalFn goalId) }
  else p

/-- The `toggleGoalStatus` function of src/App.tsx (lines 196-209). -/
def toggleGoalStatus (projectId goalId : String) (prev : List Project) : List Project :=
  prev.map (toggleProjFn projectId goalId)

/-- The per-project updater of `deleteGoal` (src/App.tsx lines 214-217). -/
def deleteGoalFn (goalId : String) (p : Project) : Project :=
  { p with goals := p.goals.filter (fun g => g.id != goalId) }

/-- The `deleteGoal` function of src/App.tsx (lines 212-219): filter the
goal id out of every project's goal list; no project parameter is taken. -/
def deleteGoal (goalId : String) (prev : List Project) : List Project :=
  prev.map (deleteGoalFn goalId)

/-- The `allGoals` memo of src/App.tsx (lines 70-72), without the
`projectTitle` decoration (which plays no role in the statistics). -/
def allGoals (projects : List Project) : List Goal :=
  (projects.map (fun p => p.goals)).flatten

/-- Result record of the `stats` memo of src/App.tsx (lines 74-85). -/
structure Stats where
  totalProjects : Nat
  activeProjects : Nat
  totalGoals : Nat
  completionRate : Int
deriving DecidableEq, Repr

/-- The `stats` memo of src/App.tsx (lines 74-85).  JavaScript number
arithmetic is modelled exactly over the rationals; `Math.round` (round half
toward positive infinity) is Mathlib's `round`.  The zero-goal guard is the
truthiness test `totalGoals ? ... : 0`. -/
def computeStats (projects : List Project) : Stats :=
  let goals := allGoals projects
  let totalGoals := goals.length
  let completedGoals := (goals.filter (fun g => g.status == GoalStatus.COMPLETED)).length
  { totalProjects := projects.length
    activeProjects := (projects.filter (fun p => p.status == ProjectStatus.ACTIVE)).length
    totalGoals := totalGoals
    completionRate :=
      if totalGoals = 0 then 0
      else round (((completedGoals : ℚ) / (totalGoals : ℚ)) * 100) }

/-- The serialized string value of a `ProjectStatus`, as compared against
the status filter string in `filteredProjects`. -/
def statusStr : ProjectStatus → String
  | ProjectStatus.PLANNING => "PLANNING"
  | ProjectStatus.ACTIVE => "ACTIVE"
  | ProjectStatus.PAUSED => "PAUSED"
  | ProjectStatus.COMPLETED => "COMPLETED"

/-- Check that `needle` occurs at the start of `hay` (character lists). -/
def leadsWith : List Char → List Char → Bool
  | [], _ => true
  | _ :: _, [] => false
  | a :: as, b :: bs => (a == b) && leadsWith as bs

/-- JavaScript's `String.prototype.includes`: `needle` occurs contiguously
somewhere inside `hay`. -/
def containsChars (hay needle : List Char) : Bool :=
  match hay with
  | [] => needle.isEmpty
  | _ :: rest => leadsWith needle hay || containsChars rest needle

/-- `String.prototype.toLowerCase` on the character list of a string. -/
def lowerChars (l : List Char) : List Char :=
  l.map Char.toLower

/-- The `filteredProjects` memo of src/App.tsx (lines 95-102).  The title
match is `p.title.toLowerCase().includes(searchQuery.toLowerCase())`,
modelled over character lists. -/
def filterProjects (projects : List Project)
    (searchQuery statusFilter categoryFilter : String) : List Project :=
  projects.filter (fun p =>
    let matchesSearch := containsChars (lowerChars p.title.toList) (lowerChars searchQuery.toList)
    let matchesStatus := statusFilter == "All" || statusStr p.status == statusFilter
    let matchesCategory := categoryFilter == "All" || p.category == categoryFilter
    matchesSearch && matchesStatus && matchesCategory)

/-- The projects whose goal list currently contains a goal with id `gid`. -/
def ownersOf (projects : List Project) (gid : String) : List Project :=
  projects.filter (fun p => p.goals.any (fun g => g.id == gid))

/-- The patch object literal `{projectId: otherProjectId}` passed to
`updateGoal` to move a goal (the kanban drop handler passes the analogous
`{status}` literal). -/
def movePatch (q : String) : GoalPatch :=
  { id := none
    projectId := some q
    title := none
    description := none
    status := none
    priority := none
    dueDate := none }

/-- A patch that only retitles a goal, carrying no projectId, as built by
`InlineTaskForm.handleSave` when the project selection is unchanged. -/
def retitlePatch (t : String) : GoalPatch :=
  { id := none
    projectId := none
    title := some t
    description := none
    status := none
    priority := none
    dueDate := none }

/-- Concrete goal fixture: goal "g1" owned by project "A". -/
def gExG1 : Goal :=
  { id := "g1"
    projectId := "A"
    title := "t"
    description := ""
    status := GoalStatus.PENDING
    priority := GoalPriority.medium
    dueDate := none }

/-- Concrete project fixture "A" containing goal "g1". -/
def pExA : Project :=
  { id := "A"
    title := "Alpha"
    description := "d"
    category := "Development"
    status := ProjectStatus.ACTIVE
    deadline := none
    goals := [gExG1]
    createdAt := "2024-01-01" }

/-- Concrete project fixture "B" with no goals. -/
def pExB : Project :=
  { id := "B"
    title := "Beta"
    description := "d"
    category := "Development"
    status := ProjectStatus.ACTIVE
    deadline := none
    goals := []
    createdAt := "2024-01-01" }

/-- Concrete goal fixture: goal "g1" owned by project "B". -/
def gExB1 : Goal :=
  { id := "g1"
    projectId := "B"
    title := "t"
    description := ""
    status := GoalStatus.PENDING
    priority := GoalPriority.medium
    dueDate := none }

/-- Concrete project fixture "A" with no goals. -/
def pExAempty : Project :=
  { id := "A"
    title := "Alpha"
    description := "d"
    category := "Development"
    status := ProjectStatus.ACTIVE
    deadline := none
    goals := []
    createdAt := "2024-01-01" }

/-- Concrete project fixture "B" owning goal "g1". -/
def pExBowner : Project :=
  { id := "B"
    title := "Beta"
    description := "d"
    category := "Development"
    status := ProjectStatus.ACTIVE
    deadline := none
    goals := [gExB1]
    createdAt := "2024-01-01" }

/-- Concrete Inbox fixture as seeded at startup (src/App.tsx lines 23-31). -/
def pInbox : Project :=
  { id := inboxId
    title := "Inbox"
    description := "General tasks and quick thoughts."
    category := "Personal"
    status := ProjectStatus.ACTIVE
    deadline := none
    goals := []
    createdAt := "2024-01-01" }

lemma findGoal_eq_none_iff (ps : List Project) (gid : String) :
    findGoal ps gid = none ↔ ∀ p ∈ ps, ∀ g ∈ p.goals, g.id ≠ gid := by
  induction ps with
  | nil => simp [findGoal]
  | cons p rest ih =>
    rw [findGoal]
    cases hfind : p.goals.find? (fun g => g.id == gid) with
    | some g =>
      refine iff_of_false (by simp) fun h => ?_
      exact (h p (List.mem_cons_self p rest) g (List.mem_of_find?_eq_some hfind))
        (by simpa using List.find?_some hfind)
    | none =>
      constructor
      · intro h q hq g hg
        rcases List.mem_cons.mp hq with rfl | hq'
        · simpa using List.find?_eq_none.mp hfind g hg
        · exact ih.mp h q hq' g hg
      · intro h
        exact ih.mpr fun q hq g hg => h q (List.mem_cons_of_mem p hq) g hg

lemma findGoal_id (ps : List Project) (gid : String) (g0 : Goal)
    (h : findGoal ps gid = some g0) : g0.id = gid := by
  induction ps with
  | nil => simp [findGoal] at h
  | cons p rest ih =>
    rw [findGoal] at h
    cases hfind : p.goals.find? (fun g => g.id == gid) with
    | some g =>
      rw [hfind] at h
      obtain rfl : g = g0 := by injection h
      simpa using List.find?_some hfind
    | none =>
      rw [hfind] at h
      exact ih h

/-- Claim C9: `deleteGoal(goalId)` removes the goal matching goalId from
whichever project currently owns it, regardless of any caller-held project
reference (the operation takes no project argument and filters every
project's goal list), and is a no-op — the collection is unchanged — when
no goal with that id exists in any project. -/
theorem deleteGoal_spec (gid : String) (ps : List Project) :
    (∀ p ∈ deleteGoal gid ps, ∀ g ∈ p.goals, g.id ≠ gid) ∧
    ((∀ p ∈ ps, ∀ g ∈ p.goals, g.id ≠ gid) → deleteGoal gid ps = ps) := by
  constructor
  · intro p hp g hg
    rw [deleteGoal] at hp
    obtain ⟨q, hq, rfl⟩ := List.mem_map.mp hp
    rw [deleteGoalFn] at hg
    simpa using (List.mem_filter.mp hg).2
  · intro h
    rw [deleteGoal]
    have hco : ∀ p ∈ ps, deleteGoalFn gid p = id p := by
      intro p hp
      have he : p.goals.filter (fun g => g.id != gid) = p.goals :=
        List.filter_eq_self.mpr fun g hg => by simpa using h p hp g hg
      rw [deleteGoalFn, he]
      rfl
    rw [List.map_congr_left hco, List.map_id]

/-- Witness for `deleteGoal_spec`: deleting "g1" leaves no goal "g1" in the
fixture collection, and deleting an id that occurs nowhere changes
nothing. -/
theorem deleteGoal_spec_witness :
    (∀ p ∈ deleteGoal "g1" [pExA], ∀ g ∈ p.goals, g.id ≠ "g1") ∧
    deleteGoal "zzz" [pExA] = [pExA] :=
  ⟨(deleteGoal_spec "g1" [pExA]).1, (deleteGoal_spec "zzz" [pExA]).2 (by decide)⟩

lemma toggleStatus_invol (s : GoalStatus)
    (h : s = GoalStatus.PENDING ∨ s = GoalStatus.COMPLETED) :
    toggleStatus (toggleStatus s) = s := by
  rcases h with rfl | rfl <;> rfl

/-- Claim C6: `toggleGoalStatus` is an involution on the status subset
{PENDING, COMPLETED}: when every goal with the given id owned by the given
project has status PENDING or COMPLETED, applying it twice restores the
collection, and one application swaps PENDING and COMPLETED. -/
theorem toggleGoalStatus_involution (pid gid : String) (ps : List Project)
    (h : ∀ p ∈ ps, p.id = pid → ∀ g ∈ p.goals, g.id = gid →
      (g.status = GoalStatus.PENDING ∨ g.status = GoalStatus.COMPLETED)) :
    toggleGoalStatus pid gid (toggleGoalStatus pid gid ps) = ps ∧
    toggleStatus GoalStatus.PENDING = GoalStatus.COMPLETED ∧
    toggleStatus GoalStatus.COMPLETED = GoalStatus.PENDING := by
  refine ⟨?_, rfl, rfl⟩
  rw [toggleGoalStatus, toggleGoalStatus, List.map_map]
  have hco : ∀ p ∈ ps,
      (toggleProjFn pid gid ∘ toggleProjFn pid gid) p = id p := by
    intro p hp
    have hcomp : (toggleProjFn pid gid ∘ toggleProjFn pid gid) p
        = toggleProjFn pid gid (toggleProjFn pid gid p) := rfl
    rw [hcomp]
    by_cases hpid : p.id = pid
    · have e1 : toggleProjFn pid gid p
          = { p with goals := p.goals.map (toggleGoalFn gid) } := by
        rw [toggleProjFn, if_pos hpid]
      have e2 : toggleProjFn pid gid { p with goals := p.goals.map (toggleGoalFn gid) }
          = { p with goals := (p.goals.map (toggleGoalFn gid)).map (toggleGoalFn gid) } := by
        rw [toggleProjFn]
        exact if_pos hpid
      rw [e1, e2, List.map_map]
      have hgo : ∀ g ∈ p.goals, (toggleGoalFn gid ∘ toggleGoalFn gid) g = id g := by
        intro g hg
        have hgcomp : (toggleGoalFn gid ∘ toggleGoalFn gid) g
            = toggleGoalFn gid (toggleGoalFn gid g) := rfl
        rw [hgcomp]
        by_cases hgid : g.id = gid
        · have f1 : toggleGoalFn gid g = { g with status := toggleStatus g.status } := by
            rw [toggleGoalFn, if_pos hgid]
          have f2 : toggleGoalFn gid { g with status := toggleStatus g.status }
              = { g with status := toggleStatus (toggleStatus g.status) } := by
            rw [toggleGoalFn]
            exact if_pos hgid
          rw [f1, f2, toggleStatus_invol g.status (h p hp hpid g hg hgid)]
          rfl
        · have f1 : toggleGoalFn gid g = g := by
            rw [toggleGoalFn, if_neg hgid]
          rw [f1, f1]
          rfl
      rw [List.map_congr_left hgo, List.map_id]
      rfl
    · have e1 : toggleProjFn pid gid p = p := by
        rw [toggleProjFn, if_neg hpid]
      rw [e1, e1]
      rfl
  rw [List.map_congr_left hco, List.map_id]

/-- Witness for `toggleGoalStatus_involution`: toggling goal "g1" of project
"A" twice restores the fixture collection. -/
theorem toggleGoalStatus_involution_witness :
    toggleGoalStatus "A" "g1" (toggleGoalStatus "A" "g1" [pExA]) = [pExA] ∧
    toggleStatus GoalStatus.PENDING = GoalStatus.COMPLETED ∧
    toggleStatus GoalStatus.COMPLETED = GoalStatus.PENDING :=
  toggleGoalStatus_involution "A" "g1" [pExA] (by decide)

/-- Claim C7: `computeStats` returns totalProjects = number of projects,
activeProjects = number with status ACTIVE, totalGoals = number of goals
across all projects, and completionRate = round(100 * completedGoals /
totalGoals), with completionRate = 0 when there are no goals (no division by
zero). -/
theorem computeStats_spec (ps : List Project) :
    (computeStats ps).totalProjects = ps.length ∧
    (computeStats ps).activeProjects
      = (ps.filter (fun p => p.status == ProjectStatus.ACTIVE)).length ∧
    (computeStats ps).totalGoals = (allGoals ps).length ∧
    ((allGoals ps).length = 0 → (computeStats ps).completionRate = 0) ∧
    ((allGoals ps).length ≠ 0 → (computeStats ps).completionRate
      = round ((100 * (((allGoals ps).filter
            (fun g => g.status == GoalStatus.COMPLETED)).length : ℚ))
          / ((allGoals ps).length : ℚ))) := by
  refine ⟨rfl, rfl, rfl, fun h => ?_, fun h => ?_⟩
  · simp [computeStats, h]
  · simp only [computeStats, if_neg h]
    congr 1
    ring

/-- Witness for `computeStats_spec`: the empty collection has rate 0, and
the one-project fixture's rate matches the specification formula. -/
theorem computeStats_spec_witness :
    (computeStats []).completionRate = 0 ∧
    (computeStats [pExA]).completionRate
      = round ((100 * (((allGoals [pExA]).filter
            (fun g => g.status == GoalStatus.COMPLETED)).length : ℚ))
          / ((allGoals [pExA]).length : ℚ)) :=
  ⟨(computeStats_spec []).2.2.2.1 rfl, (computeStats_spec [pExA]).2.2.2.2 (by decide)⟩

/-- Claim C3: `deleteProject` applied to the reserved Inbox id always fails
with ProtectedEntityError (regardless of the confirmation dialog and of the
collection, with no new collection produced); applied to any other id, once
the user confirms, it removes the project with that id — together with its
nested goals — from the collection. -/
theorem deleteProject_spec (id : String) (confirmed : Bool) (ps : List Project) :
    deleteProject inboxId confirmed ps = .error .protectedEntity ∧
    (id ≠ inboxId →
      deleteProject id true ps = .ok (ps.filter (fun p => p.id != id)) ∧
      ∀ p ∈ ps.filter (fun p => p.id != id), p.id ≠ id) := by
  refine ⟨by rw [deleteProject, if_pos rfl], fun h => ⟨by rw [deleteProject, if_neg h]; rfl, ?_⟩⟩
  intro p hp
  simpa using (List.mem_filter.mp hp).2

/-- Witness for `deleteProject_spec`: deleting the Inbox fails with the
protected-entity error, and deleting project "A" removes it. -/
theorem deleteProject_spec_witness :
    deleteProject inboxId true [pExA] = .error .protectedEntity ∧
    (deleteProject "A" true [pExA] = .ok ([pExA].filter (fun p => p.id != "A")) ∧
      ∀ p ∈ [pExA].filter (fun p => p.id != "A"), p.id ≠ "A") :=
  ⟨(deleteProject_spec "A" true [pExA]).1,
   (deleteProject_spec "A" true [pExA]).2 (by decide)⟩

/-- Claim C2: for every input with non-empty title and description,
`createProject` yields a Project whose id is the freshly generated one
(unique, i.e. not equal to any existing project's id, under the freshness
of the generated UUID), whose status is ACTIVE and whose goals list is
empty, appended to the collection; an empty title or description fails with
ValidationError. -/
theorem createProject_spec (title desc cat : String) (dl : Option String)
    (nid now : String) (ps : List Project) :
    (title = "" ∨ desc = "" →
      createProject title desc cat dl nid now ps = .error .validation) ∧
    (title ≠ "" → desc ≠ "" → (∀ p ∈ ps, p.id ≠ nid) →
      ∃ newP : Project,
        createProject title desc cat dl nid now ps = .ok (ps ++ [newP]) ∧
        newP.id = nid ∧ newP.status = ProjectStatus.ACTIVE ∧ newP.goals = [] ∧
        ∀ p ∈ ps, p.id ≠ newP.id) := by
  constructor
  · intro h
    rw [createProject, if_pos h]
  · intro h1 h2 hf
    refine ⟨{ id := nid
              title := title
              description := desc
              category := cat
              status := ProjectStatus.ACTIVE
              deadline := dl
              goals := []
              createdAt := now }, ?_, rfl, rfl, rfl, hf⟩
    rw [createProject, if_neg (not_or.mpr ⟨h1, h2⟩)]

/-- Witness for `createProject_spec`: an empty title is rejected, while a
valid input appends the fresh ACTIVE project with no goals. -/
theorem createProject_spec_witness :
    createProject "" "D" "Personal" none "id1" "t0" [] = .error .validation ∧
    ∃ newP : Project,
      createProject "T" "D" "Personal" none "id1" "t0" [] = .ok ([] ++ [newP]) ∧
      newP.id = "id1" ∧ newP.status = ProjectStatus.ACTIVE ∧ newP.goals = [] ∧
      ∀ p ∈ ([] : List Project), p.id ≠ newP.id :=
  ⟨(createProject_spec "" "D" "Personal" none "id1" "t0" []).1 (Or.inl rfl),
   (createProject_spec "T" "D" "Personal" none "id1" "t0" []).2
     (by decide) (by decide) (by decide)⟩

/-- Claim C4: `addGoal` fails — leaving the collection unchanged — when the
title is blank or when the given projectId does not resolve to an existing
project; on success the new goal is inserted at the front of the owning
project's goal sequence with status PENDING and the given priority, the
`priority` parameter defaulting to MEDIUM. -/
theorem addGoal_spec (pid title descr : String) (due : Option String)
    (prio : GoalPriority) (nid : String) (ps : List Project) :
    (trimChars title.toList = [] → addGoal pid title descr due prio nid ps = ps) ∧
    ((∀ p ∈ ps, p.id ≠ pid) → addGoal pid title descr due prio nid ps = ps) ∧
    (trimChars title.toList ≠ [] → pid ≠ "" → ∀ p ∈ ps, p.id = pid →
      ({ p with goals := mkGoal nid pid title descr due prio :: p.goals } : Project)
        ∈ addGoal pid title descr due prio nid ps) ∧
    (mkGoal nid pid title descr due prio).status = GoalStatus.PENDING ∧
    (mkGoal nid pid title descr due prio).priority = prio ∧
    addGoalDefault pid title descr due nid ps
      = addGoal pid title descr due GoalPriority.medium nid ps := by
  refine ⟨fun h => ?_, fun h => ?_, fun h1 h2 p hp hpid => ?_, rfl, rfl, rfl⟩
  · rw [addGoal, if_pos (Or.inl h)]
  · rw [addGoal]
    by_cases hg : trimChars title.toList = [] ∨ pid = ""
    · rw [if_pos hg]
    · rw [if_neg hg]
      have hco : ∀ p ∈ ps,
          addGoalFn pid (mkGoal nid pid title descr due prio) p = id p := by
        intro p hp
        rw [addGoalFn, if_neg (h p hp)]
        rfl
      rw [List.map_congr_left hco, List.map_id]
  · rw [addGoal, if_neg (not_or.mpr ⟨h1, h2⟩)]
    have hm := List.mem_map_of_mem (addGoalFn pid (mkGoal nid pid title descr due prio)) hp
    rwa [addGoalFn, if_pos hpid] at hm

/-- Witness for `addGoal_spec`, realising the specification scenario: adding
"Buy milk" with priority LOW to the seeded Inbox puts it first in the Inbox
goal list, PENDING, with priority low. -/
theorem addGoal_spec_witness :
    ({ pInbox with
        goals := mkGoal "gid1" "inbox-project" "Buy milk" "" none GoalPriority.low
          :: pInbox.goals } : Project)
      ∈ addGoal "inbox-project" "Buy milk" "" none GoalPriority.low "gid1" [pInbox] ∧
    (mkGoal "gid1" "inbox-project" "Buy milk" "" none GoalPriority.low).status
      = GoalStatus.PENDING ∧
    (mkGoal "gid1" "inbox-project" "Buy milk" "" none GoalPriority.low).priority
      = GoalPriority.low :=
  ⟨(addGoal_spec "inbox-project" "Buy milk" "" none GoalPriority.low "gid1" [pInbox]).2.2.1
      (by decide) (by decide) pInbox (by decide) rfl,
   (addGoal_spec "inbox-project" "Buy milk" "" none GoalPriority.low "gid1" [pInbox]).2.2.2.1,
   (addGoal_spec "inbox-project" "Buy milk" "" none GoalPriority.low "gid1" [pInbox]).2.2.2.2.1⟩

/-- Claim C5: `updateGoal` locates the goal by goalId searching across all
projects (the lookup `findGoal` does not consult the caller-supplied
projectId at all), and when no goal with that id exists in any project the
operation fails — the collection is returned unchanged. -/
theorem updateGoal_notFound_spec (pid gid : String) (u : GoalPatch) (ps : List Project) :
    (findGoal ps gid = none ↔ ∀ p ∈ ps, ∀ g ∈ p.goals, g.id ≠ gid) ∧
    ((∀ p ∈ ps, ∀ g ∈ p.goals, g.id ≠ gid) → updateGoal pid gid u ps = ps) := by
  refine ⟨findGoal_eq_none_iff ps gid, fun h => ?_⟩
  rw [updateGoal, (findGoal_eq_none_iff ps gid).mpr h]

/-- Witness for `updateGoal_notFound_spec`: no goal anywhere carries id
"zzz", so updating it leaves the fixture collection untouched. -/
theorem updateGoal_notFound_spec_witness :
    updateGoal "A" "zzz" (retitlePatch "x") [pExA] = [pExA] :=
  (updateGoal_notFound_spec "A" "zzz" (retitlePatch "x") [pExA]).2 (by decide)

/-- Claim C10: when the patch carries no projectId different from the
caller-supplied one, the patch is applied only within the project whose id
equals the caller-supplied projectId (every other project passes through
unchanged); if the goal exists somewhere in the collection but not in that
caller-supplied project's goal list, the entire collection is left
unchanged — the update is silently dropped. -/
theorem updateGoal_inPlace_scoped (pid gid : String) (u : GoalPatch) (ps : List Project)
    (hpatch : u.projectId = none ∨ u.projectId = some pid)
    (hex : ∃ p ∈ ps, ∃ g ∈ p.goals, g.id = gid)
    (hnot : ∀ p ∈ ps, p.id = pid → ∀ g ∈ p.goals, g.id ≠ gid) :
    updateGoal pid gid u ps = ps ∧
    (∀ p ∈ ps, p.id ≠ pid → p ∈ updateGoal pid gid u ps) := by
  have hmove : isMoveTarget u pid = false := by
    rcases hpatch with h | h <;> simp [isMoveTarget, h]
  have hid : ∀ p ∈ ps, inPlaceFn pid gid u p = p := by
    intro p hp
    by_cases hpid : p.id = pid
    · rw [inPlaceFn, if_pos hpid]
      have hgo : ∀ g ∈ p.goals, patchGoalFn gid u g = id g := by
        intro g hg
        rw [patchGoalFn, if_neg (hnot p hp hpid g hg)]
        rfl
      rw [List.map_congr_left hgo, List.map_id]
    · rw [inPlaceFn, if_neg hpid]
  constructor
  · rw [updateGoal]
    cases hf : findGoal ps gid with
    | none => rfl
    | some g0 =>
      rw [hmove]
      simp only [Bool.false_eq_true, if_false]
      calc ps.map (inPlaceFn pid gid u) = ps.map id := List.map_congr_left hid
        _ = ps := List.map_id ps
  · intro p hp hne
    rw [updateGoal]
    cases hf : findGoal ps gid with
    | none => exact hp
    | some g0 =>
      rw [hmove]
      simp only [Bool.false_eq_true, if_false]
      have := List.mem_map_of_mem (inPlaceFn pid gid u) hp
      rwa [hid p hp] at this

/-- Witness for `updateGoal_inPlace_scoped`: goal "g1" lives in project "B";
a retitling update addressed to project "A" is dropped and project "B"
passes through unchanged. -/
theorem updateGoal_inPlace_scoped_witness :
    updateGoal "A" "g1" (retitlePatch "x") [pExAempty, pExBowner] = [pExAempty, pExBowner] ∧
    (∀ p ∈ [pExAempty, pExBowner], p.id ≠ "A" →
      p ∈ updateGoal "A" "g1" (retitlePatch "x") [pExAempty, pExBowner]) :=
  updateGoal_inPlace_scoped "A" "g1" (retitlePatch "x") [pExAempty, pExBowner]
    (Or.inl rfl) (by decide) (by decide)

lemma leadsWith_iff (needle hay : List Char) :
    leadsWith needle hay = true ↔ ∃ r, hay = needle ++ r := by
  induction needle generalizing hay with
  | nil =>
    simp [leadsWith]
  | cons a as ih =>
    cases hay with
    | nil => simp [leadsWith]
    | cons b bs =>
      rw [leadsWith]
      simp only [Bool.and_eq_true, beq_iff_eq, ih]
      constructor
      · rintro ⟨rfl, r, rfl⟩
        exact ⟨r, rfl⟩
      · rintro ⟨r, hr⟩
        injection hr with h1 h2
        exact ⟨h1.symm, r, h2⟩

lemma containsChars_iff (hay needle : List Char) :
    containsChars hay needle = true ↔ ∃ l r, hay = l ++ needle ++ r := by
  induction hay with
  | nil =>
    simp only [containsChars, List.isEmpty_iff]
    constructor
    · rintro rfl
      exact ⟨[], [], rfl⟩
    · rintro ⟨l, r, hr⟩
      rcases List.append_eq_nil.mp (List.append_eq_nil.mp hr.symm).1 with ⟨-, h2⟩
      exact h2
  | cons c rest ih =>
    rw [containsChars]
    simp only [Bool.or_eq_true, leadsWith_iff, ih]
    constructor
    · rintro (⟨r, hr⟩ | ⟨l, r, hr⟩)
      · exact ⟨[], r, by simpa using hr⟩
      · exact ⟨c :: l, r, by simp [hr]⟩
    · rintro ⟨l, r, hr⟩
      cases l with
      | nil =>
        left
        exact ⟨r, by simpa using hr⟩
      | cons x xs =>
        right
        injection hr with h1 h2
        exact ⟨xs, r, h2⟩

/-- Claim C8: `filterProjects` returns exactly the projects whose lowercased
title contains the lowercased search string as a contiguous substring, whose
status string equals the status filter unless that filter is the sentinel
"All", and whose category equals the category filter unless it is "All". -/
theorem filterProjects_spec (ps : List Project) (search statusF catF : String)
    (p : Project) :
    p ∈ filterProjects ps search statusF catF ↔
      p ∈ ps ∧
      (∃ l r, lowerChars p.title.toList = l ++ lowerChars search.toList ++ r) ∧
      (statusF = "All" ∨ statusStr p.status = statusF) ∧
      (catF = "All" ∨ p.category = catF) := by
  rw [filterProjects, List.mem_filter]
  simp only [Bool.and_eq_true, Bool.or_eq_true, beq_iff_eq, containsChars_iff]
  tauto

/-- Witness for `filterProjects_spec`: the fixture project titled "Alpha" is
kept by the search string "alp" with both other filters at "All". -/
theorem filterProjects_spec_witness :
    pExA ∈ filterProjects [pExA] "alp" "All" "All" :=
  (filterProjects_spec [pExA] "alp" "All" "All" pExA).mpr
    ⟨by decide, ⟨[], "ha".toList, by decide⟩, Or.inl rfl, Or.inl rfl⟩

/-- Claim C1 is false as stated: starting from a collection whose only
project "A" owns goal "g1", the call `updateGoal("A", "g1",
{projectId: "B"})` — where "B" differs from the caller-supplied "A" but no
project with id "B" exists — leaves the goal in no project's goal list at
all, not in exactly one. -/
theorem updateGoal_move_claim_false :
    ownersOf (updateGoal "A" "g1" (movePatch "B") [pExA]) "g1" = [] ∧
    pExA.goals = [gExG1] ∧ gExG1.id = "g1" ∧ gExG1.projectId = "A" ∧
    pExA.id = "A" ∧ "B" ≠ "A" ∧
    (updateGoal "A" "g1" (movePatch "B") [pExA]).length = 1 := by
  decide

/-- Claim C1, amended: provided the caller-supplied projectId is the goal's
current owner (every project containing a goal with id g.id is the
caller-supplied one, and the goal does occur there), exactly one project in
the collection carries id otherProjectId, and otherProjectId is non-empty
and different from the caller-supplied id, then after
`updateGoal(p, g.id, {projectId: otherProjectId})` — a single functional
transition — the goal's id appears in exactly one project's goal list, that
project's id is otherProjectId, and every goal carrying the id has
projectId = otherProjectId. -/
theorem updateGoal_move_correct (ps : List Project) (pid gid other : String)
    (hsrc : ∀ p ∈ ps, ∀ g ∈ p.goals, g.id = gid → p.id = pid)
    (hex : ∃ p ∈ ps, p.id = pid ∧ ∃ g ∈ p.goals, g.id = gid)
    (hdest : (ps.filter (fun p => p.id == other)).length = 1)
    (hne : other ≠ pid) (hne2 : other ≠ "") :
    (ownersOf (updateGoal pid gid (movePatch other) ps) gid).length = 1 ∧
    (∀ p ∈ ownersOf (updateGoal pid gid (movePatch other) ps) gid, p.id = other) ∧
    (∀ p ∈ updateGoal pid gid (movePatch other) ps, ∀ g ∈ p.goals,
      g.id = gid → g.projectId = other) := by
  obtain ⟨q0, hq0, hq0id, g, hgmem, hgid⟩ := hex
  have hnone : findGoal ps gid ≠ none := fun hn =>
    ((findGoal_eq_none_iff ps gid).mp hn q0 hq0 g hgmem) hgid
  obtain ⟨g0, hf⟩ := Option.ne_none_iff_exists'.mp hnone
  have hg0 : g0.id = gid := findGoal_id ps gid g0 hf
  have hmove : isMoveTarget (movePatch other) pid = true := by
    simp [isMoveTarget, movePatch, hne, hne2]
  have hmerge : mergeGoal g0 (movePatch other) = { g0 with projectId := other } := rfl
  have hupd : updateGoal pid gid (movePatch other) ps
      = ps.map (moveFn pid gid (movePatch other) g0) := by
    calc updateGoal pid gid (movePatch other) ps
        = if isMoveTarget (movePatch other) pid then
            ps.map (moveFn pid gid (movePatch other) g0)
          else ps.map (inPlaceFn pid gid (movePatch other)) := by
          rw [updateGoal, hf]
      _ = ps.map (moveFn pid gid (movePatch other) g0) := if_pos hmove
  have hFsrc : ∀ p : Project, p.id = pid → moveFn pid gid (movePatch other) g0 p
      = { p with goals := p.goals.filter (fun g => g.id != gid) } := by
    intro p hpid
    rw [moveFn, if_pos hpid]
  have hFdst : ∀ p : Project, p.id ≠ pid → p.id = other →
      moveFn pid gid (movePatch other) g0 p
        = { p with goals := { g0 with projectId := other } :: p.goals } := by
    intro p hpid hpo
    have hc : (movePatch other).projectId = some p.id := by rw [hpo]; rfl
    rw [moveFn, if_neg hpid, if_pos hc, hmerge]
  have hFel : ∀ p : Project, p.id ≠ pid → p.id ≠ other →
      moveFn pid gid (movePatch other) g0 p = p := by
    intro p h1 h2
    have hc : ¬((movePatch other).projectId = some p.id) := by
      simp only [movePatch, Option.some.injEq]
      exact fun he => h2 he.symm
    rw [moveFn, if_neg h1, if_neg hc]
  have hP : ∀ p ∈ ps,
      ((moveFn pid gid (movePatch other) g0 p).goals.any (fun g => g.id == gid))
        = (p.id == other) := by
    intro p hp
    by_cases hpid : p.id = pid
    · rw [hFsrc p hpid]
      have h1 : (p.goals.filter (fun g => g.id != gid)).any (fun g => g.id == gid)
          = false := by
        rw [List.any_eq_false]
        intro x hx
        simpa using (List.mem_filter.mp hx).2
      have h2 : (p.id == other) = false :=
        beq_eq_false_iff_ne.mpr (by rw [hpid]; exact fun he => hne he.symm)
      rw [h2]
      exact h1
    · by_cases hpo : p.id = other
      · rw [hFdst p hpid hpo]
        have h1 : (({ g0 with projectId := other } : Goal).id == gid) = true := by
          simpa using hg0
        have h2 : (p.id == other) = true := by simpa using hpo
        rw [h2, List.any_cons, h1]
        rfl
      · rw [hFel p hpid hpo]
        have h1 : p.goals.any (fun g => g.id == gid) = false := by
          rw [List.any_eq_false]
          intro g hg
          simp only [beq_iff_eq]
          exact fun he => hpid (hsrc p hp g hg he)
        have h2 : (p.id == other) = false := beq_eq_false_iff_ne.mpr hpo
        rw [h1, h2]
  have howners : ownersOf (ps.map (moveFn pid gid (movePatch other) g0)) gid
      = (ps.filter (fun p => p.id == other)).map (moveFn pid gid (movePatch other) g0) := by
    rw [ownersOf, List.filter_map]
    exact congrArg (List.map (moveFn pid gid (movePatch other) g0))
      (List.filter_congr fun p hp => hP p hp)
  refine ⟨?_, ?_, ?_⟩
  · rw [hupd, howners, List.length_map, hdest]
  · intro p hp
    rw [hupd, howners] at hp
    obtain ⟨q, hq, rfl⟩ := List.mem_map.mp hp
    have hqo : q.id = other := by simpa using (List.mem_filter.mp hq).2
    have hqpid : q.id ≠ pid := by rw [hqo]; exact hne
    rw [hFdst q hqpid hqo]
    exact hqo
  · intro p hp g1 hg1 hgid1
    rw [hupd] at hp
    obtain ⟨q, hq, rfl⟩ := List.mem_map.mp hp
    by_cases hqpid : q.id = pid
    · rw [hFsrc q hqpid] at hg1
      have := (List.mem_filter.mp hg1).2
      simp only [bne_iff_ne, ne_eq] at this
      exact absurd hgid1 this
    · by_cases hqo : q.id = other
      · rw [hFdst q hqpid hqo] at hg1
        rcases List.mem_cons.mp hg1 with rfl | hg'
        · rfl
        · exact absurd (hsrc q hq g1 hg' hgid1) hqpid
      · rw [hFel q hqpid hqo] at hg1
        exact absurd (hsrc q hq g1 hg1 hgid1) hqpid

/-- Witness for `updateGoal_move_correct`: moving goal "g1" from its owner
"A" to the existing project "B" leaves it in exactly the "B" project, with
its projectId updated to "B". -/
theorem updateGoal_move_correct_witness :
    (ownersOf (updateGoal "A" "g1" (movePatch "B") [pExA, pExB]) "g1").length = 1 ∧
    (∀ p ∈ ownersOf (updateGoal "A" "g1" (movePatch "B") [pExA, pExB]) "g1",
      p.id = "B") ∧
    (∀ p ∈ updateGoal "A" "g1" (movePatch "B") [pExA, pExB], ∀ g ∈ p.goals,
      g.id = "g1" → g.projectId = "B") :=
  updateGoal_move_correct [pExA, pExB] "A" "g1" "B"
    (by decide) (by decide) (by decide) (by decide) (by decide)

end ProjectSync

